import Mathlib

/-!
Verification of the modal-stack coordinator of `react-native-modalfy`
(`src/lib/ModalProvider.tsx`).

Shallow embedding of the `<ModalProvider>` component of `react-native-modalfy`:
its modal event-listener registry (`registerListener` / `clearListeners`),
its state-store listener, its mount effect and its hardware-back handler
lifecycle.  Parts of the repository that `ModalProvider.tsx` calls but whose
source is not included (`ModalState`, `validateListener`, `invariant` from
`../utils`) are modelled from the specification and marked as such.
-/

set_option maxRecDepth 4096

namespace Modalfy

/-- A handler passed to `registerListener`.  In JavaScript a handler is an
arbitrary value; `id` models its reference identity and `callable` whether it
is a function (`typeof handler === 'function'`). -/
structure Handler where
  id : Nat
  callable : Bool
deriving DecidableEq, Repr

/-- One entry of the modal event-listener registry, from
`src/lib/ModalProvider.tsx` lines 82–85: `{ event: `${hash}_${eventName}`,
handler }`.  `id` models the JavaScript object's reference identity (each
`registerListener` call allocates a fresh object literal). -/
structure ListenerEntry where
  id : Nat
  event : String
  handler : Handler
deriving DecidableEq, Repr

/-- The registry.  The source stores entries in a JavaScript `Set`
(`useRef(new Set()).current`), which preserves insertion order; since every
`registerListener` call adds a freshly allocated object, we model the `Set`
as a list in insertion order, with `id` as reference identity. -/
abbrev Registry : Type := List ListenerEntry

/-- `sub` occurs in `l` as a contiguous sublist. -/
def isInfixOf (sub l : List Char) : Bool :=
  match l with
  | [] => sub.isEmpty
  | _ :: tail => sub.isPrefixOf l || isInfixOf sub tail

/-- JavaScript `s.includes(sub)`: `sub` occurs in `s` as a contiguous
substring. -/
def jsIncludes (s sub : String) : Bool :=
  isInfixOf sub.data s.data

/-- The event key built at `ModalProvider.tsx` line 83:
``event: `${hash}_${eventName}` ``. -/
def eventKey (hash eventName : String) : String :=
  hash ++ "_" ++ eventName

/-- Every error `ModalProvider` (or the helpers it calls) can raise
synchronously. -/
inductive ModalfyError where
  | invalidListener (msg : String)
  | configuration (msg : String)
deriving DecidableEq, Repr

/-- Modelled from the spec: `validateListener('add', { eventName, handler })`
lives in `src/utils`, which is not part of the included sources.  Spec §4.2:
"validates `eventName` and `handler` are well-formed (non-empty event name;
handler is callable) — fails with `InvalidListenerError` otherwise". -/
def validateListener (eventName : String) (handler : Handler) :
    Except ModalfyError Unit :=
  if eventName = "" then
    .error (.invalidListener "invalid event name")
  else if handler.callable = false then
    .error (.invalidListener "invalid handler")
  else
    .ok ()

/-- `registerListener` from `ModalProvider.tsx` lines 79–94: validate, build
`{ event: `${hash}_${eventName}`, handler }`, add it to the `Set`, and return
a disposer for exactly that object.  `freshId` models the fresh reference
identity of the new object literal; on success the result is the new
registry together with the id the disposer closes over. -/
def registerListener (hash eventName : String) (handler : Handler)
    (freshId : Nat) (reg : Registry) :
    Except ModalfyError (Registry × Nat) :=
  match validateListener eventName handler with
  | .error e => .error e
  | .ok _ =>
      let newListener : ListenerEntry :=
        { id := freshId, event := eventKey hash eventName, handler := handler }
      .ok (reg ++ [newListener], freshId)

/-- The disposer returned by `registerListener`
(`remove: () => modalEventListeners.delete(newListener)`): `Set.delete`
removes the object with that reference identity, if present. -/
def removeListener (eid : Nat) (reg : Registry) : Registry :=
  reg.filter (fun e => e.id ≠ eid)

/-- `clearListeners` from `ModalProvider.tsx` lines 96–103: iterate over the
`Set` and `delete` every item with `item.event.includes(hash)`.  Deleting
during `Set.forEach` still visits all remaining elements, so the net effect
is keeping exactly the entries whose event key does not contain `hash` as a
substring. -/
def clearListeners (hash : String) (reg : Registry) : Registry :=
  reg.filter (fun item => !jsIncludes item.event hash)

/-! The state-store listener and the UI root's context value. -/

/-- The snapshot delivered by the state store to its subscribers:
`modalState` carries `currentModal` and `stack`.  `currentModal` is the hash
of the topmost instance (or none); `Stack` is an opaque identity for the
stack value delivered with the snapshot. -/
structure Snapshot where
  currentModal : Option Nat
  stack : Nat
deriving DecidableEq, Repr

/-- The UI root's context value, from `ModalProvider.tsx` lines 67–77.  The
five operation fields are closures; we track their reference identities. -/
structure ContextValue where
  currentModal : Option Nat
  closeAllModals : Nat
  closeModals : Nat
  closeModal : Nat
  openModal : Nat
  getParam : Nat
  stack : Nat
deriving DecidableEq, Repr

/-- One `console.warn('Modalfy', error)` record: the fixed tag and the
(possibly absent) error value. -/
structure WarnRecord where
  tag : String
  error : Option String
deriving DecidableEq, Repr

/-- The subscribed listener, from `ModalProvider.tsx` lines 105–113: on a
non-null `modalState` it calls `setContextValue` with the spread of the
previous context value overwriting `currentModal` and `stack`; otherwise it
calls `console.warn('Modalfy', error)`.  The result is the context value
displayed after the call together with the warnings emitted; the function is
total, so the listener always returns normally. -/
def listener (ctx : ContextValue) (modalState : Option Snapshot)
    (error : Option String) : ContextValue × List WarnRecord :=
  match modalState with
  | some ms =>
      ({ ctx with currentModal := ms.currentModal, stack := ms.stack }, [])
  | none => (ctx, [{ tag := "Modalfy", error := error }])

/-! The mount effect. -/

/-- A store operation the mount effect can perform. -/
inductive StoreOp where
  | init
  | subscribe
deriving DecidableEq, Repr

/-- Modelled from the spec (for `invariant`, which lives in `src/utils` and
is not among the included sources: it throws a fatal configuration error when
its first argument is falsy).  This is the `useEffect` body of
`ModalProvider.tsx` lines 115–123: `invariant(stack, ...)`, then
`ModalState.init(...)`, then `ModalState.subscribe(listener)`.  The `stack`
prop is `none` when absent/falsy.  The result lists the store operations
performed, in order, and the error raised, if any; an exception aborts the
rest of the body. -/
def mountEffect (stack : Option (List String)) :
    List StoreOp × Option ModalfyError :=
  match stack with
  | none =>
      ([], some (.configuration
        "You need to provide a `stack` prop to <ModalProvider>"))
  | some _ => ([StoreOp.init, StoreOp.subscribe], none)

/-! Hardware-back handler lifecycle.

`ModalProvider.openModal` (lines 39–50) reads `currentModal` from the store
and, when it is none, registers `ModalState.handleBackPress` with
`BackHandler.addEventListener` before delegating to `ModalState.openModal`.
No close path touches `BackHandler`; the `useEffect` cleanup (lines 125–131,
run at unmount) calls `BackHandler.removeEventListener`.

The store itself (`ModalState`) is not among the included sources, so its
stack behaviour is modelled from the spec §4.1; `BackHandler` registration is
modelled as a flag, faithful because React Native keeps back-press handlers
in a `Set` and the registered handler is always the same
`ModalState.handleBackPress` reference. -/

/-- State of one mounted UI root: the store's open-modal stack (last element
topmost; each instance is `(hash, name)` with `nextHash` supplying fresh
hashes), and whether the hardware-back handler is currently attached. -/
structure ProviderState where
  stack : List (Nat × String)
  nextHash : Nat
  attached : Bool
deriving DecidableEq, Repr

/-- `currentModal` of the store: the last (topmost) element, or none.
Modelled from the spec: "`currentModal` = last element or none". -/
def currentModal (s : ProviderState) : Option (Nat × String) :=
  s.stack.getLast?

/-- The operations a mounted UI root can perform. -/
inductive ProviderOp where
  | openM (name : String)
  | closeM (hash : Nat)
  | closeMs (name : String)
  | closeAll
  | backPress
  | unmount
deriving DecidableEq, Repr

/-- One provider operation.  `openM` is `ModalProvider.openModal` (source
lines 39–50): attach the back handler when `currentModal` is none, then call
the store's `openModal`, which (modelled from the spec §4.1) appends a fresh
instance when the name is in the stack definition `defn` and otherwise fails
with `UnknownModalError` leaving the stack unchanged.  The close operations
and `handleBackPress` are modelled from the spec §4.1 and never touch the
back handler; `unmount` is the `useEffect` cleanup (lines 125–131), the only
place `BackHandler.removeEventListener` is called. -/
def stepOp (defn : List String) (s : ProviderState) (op : ProviderOp) :
    ProviderState :=
  match op with
  | .openM name =>
      let s' := if currentModal s = none then { s with attached := true } else s
      if defn.contains name then
        { s' with stack := s'.stack ++ [(s'.nextHash, name)],
                  nextHash := s'.nextHash + 1 }
      else s'
  | .closeM hash => { s with stack := s.stack.filter (fun i => i.1 ≠ hash) }
  | .closeMs name => { s with stack := s.stack.filter (fun i => i.2 ≠ name) }
  | .closeAll => { s with stack := [] }
  | .backPress => { s with stack := s.stack.dropLast }
  | .unmount => { s with attached := false }

/-- State at mount: empty stack, back handler not attached. -/
def initProviderState : ProviderState :=
  { stack := [], nextHash := 0, attached := false }

/-- Run a sequence of provider operations from the mount state. -/
def runOps (defn : List String) (ops : List ProviderOp) : ProviderState :=
  ops.foldl (stepOp defn) initProviderState

/-! Helper lemmas. -/

/-- The empty list is an infix of every list. -/
theorem isInfixOf_nil (l : List Char) : isInfixOf [] l = true := by
  cases l <;> simp [isInfixOf, List.isPrefixOf, List.isEmpty]

/-- Splitting a concatenation at a separator that occurs in neither left part
is unambiguous. -/
theorem append_sep_inj {l₁ l₂ r₁ r₂ : List Char}
    (h₁ : '_' ∉ l₁) (h₂ : '_' ∉ l₂)
    (h : l₁ ++ '_' :: r₁ = l₂ ++ '_' :: r₂) : l₁ = l₂ ∧ r₁ = r₂ := by
  induction l₁ generalizing l₂ with
  | nil =>
    cases l₂ with
    | nil => simpa using h
    | cons b bs =>
      simp only [List.nil_append, List.cons_append, List.cons.injEq] at h
      exact absurd (h.1 ▸ List.mem_cons_self b bs) h₂
  | cons a as ih =>
    cases l₂ with
    | nil =>
      simp only [List.nil_append, List.cons_append, List.cons.injEq] at h
      exact absurd (h.1.symm ▸ List.mem_cons_self a as) h₁
    | cons b bs =>
      simp only [List.cons_append, List.cons.injEq] at h
      have hh₁ : '_' ∉ as := fun hm => h₁ (List.mem_cons_of_mem a hm)
      have hh₂ : '_' ∉ bs := fun hm => h₂ (List.mem_cons_of_mem b hm)
      obtain ⟨hl, hr⟩ := ih hh₁ hh₂ h.2
      exact ⟨by rw [h.1, hl], hr⟩

/-- The character data of an event key. -/
theorem eventKey_data (hash eventName : String) :
    (eventKey hash eventName).data = hash.data ++ '_' :: eventName.data := by
  simp [eventKey, String.data_append]

/-! Theorems for the claims. -/

/-- Claim C1 (evaluation of the code at the failing input): the entry
registered for hash `"abcd"` / event `"go"` has event key `"abcd_go"`;
`"abcd"` is a hash different from `"abc"` (of which `"abc"` is a prefix),
yet `clearListeners "abc"` removes that entry, because the source matches
with `item.event.includes(hash)`, i.e. substring containment. -/
theorem clearListeners_substring_overreach :
    registerListener "abcd" "go" ⟨0, true⟩ 0 [] =
      .ok ([{ id := 0, event := "abcd_go", handler := ⟨0, true⟩ }], 0) ∧
    "abcd" ≠ "abc" ∧
    clearListeners "abc"
      [{ id := 0, event := "abcd_go", handler := ⟨0, true⟩ }] = [] :=
  ⟨rfl, by decide, by decide⟩

/-- Claim C2 (counterexample): as stated over all strings the claim is
false: the two distinct (hash, eventName) pairs `("a_b", "c")` and
`("a", "b_c")` are stored with the same event key `"a_b_c"`, so exact-key
matching for one pair would also fire the other pair's handler. -/
theorem registerListener_key_collision :
    (("a_b", "c") ≠ (("a" : String), ("b_c" : String))) ∧
    registerListener "a_b" "c" ⟨0, true⟩ 0 [] =
      .ok ([{ id := 0, event := "a_b_c", handler := ⟨0, true⟩ }], 0) ∧
    registerListener "a" "b_c" ⟨1, true⟩ 1 [] =
      .ok ([{ id := 1, event := "a_b_c", handler := ⟨1, true⟩ }], 1) :=
  ⟨by decide, rfl, rfl⟩

/-- Claim C2 (amended): provided neither hash contains the separator
character `'_'`, distinct (hash, eventName) pairs are stored with distinct
event keys, so exact-key matching never cross-fires; in particular the keys
for `("abc", "go")` and `("abcd", "go")` differ. -/
theorem eventKey_injective_of_sepFree_hash (h₁ e₁ h₂ e₂ : String)
    (hh₁ : '_' ∉ h₁.data) (hh₂ : '_' ∉ h₂.data)
    (hne : ¬(h₁ = h₂ ∧ e₁ = e₂)) :
    eventKey h₁ e₁ ≠ eventKey h₂ e₂ := by
  intro heq
  have hdata : h₁.data ++ '_' :: e₁.data = h₂.data ++ '_' :: e₂.data := by
    rw [← eventKey_data, ← eventKey_data, heq]
  obtain ⟨hl, hr⟩ := append_sep_inj hh₁ hh₂ hdata
  exact hne ⟨String.ext hl, String.ext hr⟩

/-- Witness for C2's amended theorem at the spec's own example. -/
theorem eventKey_injective_of_sepFree_hash_witness :
    eventKey "abc" "go" ≠ eventKey "abcd" "go" :=
  eventKey_injective_of_sepFree_hash "abc" "go" "abcd" "go"
    (by decide) (by decide) (by decide)

/-- Claim C6: `registerListener` fails synchronously with
`InvalidListenerError` when the event name is empty or the handler is not
callable, adding nothing; otherwise it evaluates to the registry extended
with exactly one new entry, scoped to `hash` through its event key. -/
theorem registerListener_validates (hash eventName : String)
    (handler : Handler) (freshId : Nat) (reg : Registry) :
    (eventName = "" ∨ handler.callable = false →
      ∃ msg, registerListener hash eventName handler freshId reg =
        .error (.invalidListener msg)) ∧
    (eventName ≠ "" → handler.callable = true →
      registerListener hash eventName handler freshId reg =
        .ok (reg ++ [{ id := freshId, event := eventKey hash eventName,
                       handler := handler }], freshId)) := by
  constructor
  · rintro (hev | hc)
    · exact ⟨"invalid event name", by simp [registerListener, validateListener, hev]⟩
    · by_cases hev : eventName = ""
      · exact ⟨"invalid event name", by simp [registerListener, validateListener, hev]⟩
      · exact ⟨"invalid handler", by simp [registerListener, validateListener, hev, hc]⟩
  · intro hev hc
    simp [registerListener, validateListener, hev, hc]

/-- Witness for C6 at concrete inputs: an empty event name is rejected, a
valid registration appends exactly one entry. -/
theorem registerListener_validates_witness :
    (∃ msg, registerListener "h" "" ⟨0, true⟩ 0 [] =
      .error (.invalidListener msg)) ∧
    registerListener "h" "go" ⟨0, true⟩ 0 [] =
      .ok ([{ id := 0, event := eventKey "h" "go", handler := ⟨0, true⟩ }], 0) :=
  ⟨(registerListener_validates "h" "" ⟨0, true⟩ 0 []).1 (Or.inl rfl),
   (registerListener_validates "h" "go" ⟨0, true⟩ 0 []).2 (by decide) rfl⟩

/-- Claim C7: the disposer of a freshly registered entry removes exactly
that entry (every pre-existing entry survives, even one with an identical
event key and handler, since removal is by reference identity), and a second
`remove()` changes nothing. -/
theorem removeListener_exact_and_idempotent (reg : Registry)
    (entry : ListenerEntry) (hfresh : ∀ e ∈ reg, e.id ≠ entry.id) :
    removeListener entry.id (reg ++ [entry]) = reg ∧
    (∀ e ∈ reg, e.event = entry.event → e.handler = entry.handler →
      e ∈ removeListener entry.id (reg ++ [entry])) ∧
    removeListener entry.id (removeListener entry.id (reg ++ [entry])) =
      removeListener entry.id (reg ++ [entry]) := by
  have hkeep : reg.filter (fun e => e.id ≠ entry.id) = reg :=
    List.filter_eq_self.mpr (fun e he => by simpa using hfresh e he)
  have h₁ : removeListener entry.id (reg ++ [entry]) = reg := by
    rw [removeListener, List.filter_append, hkeep]
    simp
  refine ⟨h₁, fun e he _ _ => by rw [h₁]; exact he, ?_⟩
  rw [h₁, removeListener, hkeep]

/-- Witness for C7: removing the disposed entry keeps an identical twin
(same event key and handler, different reference) untouched, and a second
removal is a no-op. -/
theorem removeListener_exact_and_idempotent_witness :
    removeListener 1
      ([{ id := 0, event := "h_go", handler := ⟨5, true⟩ }] ++
        [{ id := 1, event := "h_go", handler := ⟨5, true⟩ }]) =
      [{ id := 0, event := "h_go", handler := ⟨5, true⟩ }] :=
  (removeListener_exact_and_idempotent
    [{ id := 0, event := "h_go", handler := ⟨5, true⟩ }]
    { id := 1, event := "h_go", handler := ⟨5, true⟩ }
    (by decide)).1

/-- Claim C9: clearing with the empty string as hash empties the whole
registry: every event key contains `""` as a substring, so
`item.event.includes("")` holds for every entry. -/
theorem clearListeners_empty_hash (reg : Registry) :
    clearListeners "" reg = [] := by
  have h : ∀ e : ListenerEntry, jsIncludes e.event "" = true := fun e => by
    simp [jsIncludes, isInfixOf_nil]
  simp [clearListeners, List.filter_eq_nil_iff, h]

/-- Claim C10: `registerListener` never rejects on account of the hash: for
every hash, including `""`, a registration with a valid event name and
handler succeeds and stores the key hash ++ separator ++ event name; for the
empty hash the key is the separator followed by the event name. -/
theorem registerListener_any_hash (hash eventName : String)
    (handler : Handler) (freshId : Nat) (reg : Registry)
    (hev : eventName ≠ "") (hc : handler.callable = true) :
    registerListener hash eventName handler freshId reg =
      .ok (reg ++ [{ id := freshId, event := eventKey hash eventName,
                     handler := handler }], freshId) ∧
    eventKey "" eventName = "_" ++ eventName := by
  constructor
  · simp [registerListener, validateListener, hev, hc]
  · rw [eventKey, show (("" : String) ++ "_") = "_" from rfl]

/-- Witness for C10 at the empty hash. -/
theorem registerListener_any_hash_witness :
    registerListener "" "go" ⟨0, true⟩ 0 [] =
      .ok ([{ id := 0, event := eventKey "" "go", handler := ⟨0, true⟩ }], 0) ∧
    eventKey "" "go" = "_" ++ "go" :=
  registerListener_any_hash "" "go" ⟨0, true⟩ 0 [] (by decide) rfl

/-- Attachment after one step, exactly: the handler is attached afterwards
iff it was attached before and the step is not the unmount cleanup, or the
step is an `openModal` call made while `currentModal` is none. -/
theorem stepOp_attached_iff (defn : List String) (s : ProviderState)
    (op : ProviderOp) :
    (stepOp defn s op).attached = true ↔
      (s.attached = true ∧ op ≠ ProviderOp.unmount) ∨
      (∃ name, op = ProviderOp.openM name ∧ currentModal s = none) := by
  cases op with
  | openM name =>
      by_cases hcm : currentModal s = none <;>
        simp [stepOp, hcm] <;> split <;> simp
  | closeM hash => simp [stepOp]
  | closeMs name => simp [stepOp]
  | closeAll => simp [stepOp]
  | backPress => simp [stepOp]
  | unmount => simp [stepOp]

/-- One non-unmount step preserves "handler attached whenever the stack is
non-empty". -/
theorem stepOp_preserves_attached_inv (defn : List String) (s : ProviderState)
    (op : ProviderOp) (hop : op ≠ ProviderOp.unmount)
    (hs : s.stack ≠ [] → s.attached = true) :
    (stepOp defn s op).stack ≠ [] → (stepOp defn s op).attached = true := by
  cases op with
  | openM name =>
      intro _
      by_cases hcm : currentModal s = none
      · simp [stepOp, hcm]
        split <;> simp
      · have hne : s.stack ≠ [] := by
          intro hnil
          exact hcm (by simp [currentModal, hnil])
        simp [stepOp, hcm, hs hne]
        split <;> simp [hs hne]
  | closeM hash =>
      intro hder
      simp only [stepOp] at hder ⊢
      exact hs (fun hnil => hder (by simp [hnil]))
  | closeMs name =>
      intro hder
      simp only [stepOp] at hder ⊢
      exact hs (fun hnil => hder (by simp [hnil]))
  | closeAll =>
      intro hder
      simp [stepOp] at hder
  | backPress =>
      intro hder
      simp only [stepOp] at hder ⊢
      exact hs (fun hnil => hder (by simp [hnil]))
  | unmount => exact absurd rfl hop

/-- Over any unmount-free run, "handler attached whenever the stack is
non-empty" is invariant. -/
theorem foldl_attached_inv (defn : List String) (ops : List ProviderOp)
    (hops : ProviderOp.unmount ∉ ops) (s : ProviderState)
    (hs : s.stack ≠ [] → s.attached = true) :
    (ops.foldl (stepOp defn) s).stack ≠ [] →
      (ops.foldl (stepOp defn) s).attached = true := by
  induction ops generalizing s with
  | nil => exact hs
  | cons op ops ih =>
      rw [List.foldl_cons]
      have hop : op ≠ ProviderOp.unmount := fun h =>
        hops (h ▸ List.mem_cons_self op ops)
      have hops' : ProviderOp.unmount ∉ ops := fun h =>
        hops (List.mem_cons_of_mem op h)
      exact ih hops' (stepOp defn s op)
        (stepOp_preserves_attached_inv defn s op hop hs)

/-- Claim C3: over every unmount-free run from mount, whenever the stack is
non-empty the hardware-back handler is attached (so a back press is routed
to `handleBackPress`); and stepwise, the handler is attached after an
operation exactly when it was already attached and the operation is not the
unmount cleanup, or the operation is an `openModal` call made while
`currentModal` is none — in particular no close operation ever detaches it,
and detachment happens only at unmount. -/
theorem backHandler_lifecycle (defn : List String) (ops : List ProviderOp)
    (hops : ProviderOp.unmount ∉ ops) :
    ((runOps defn ops).stack ≠ [] → (runOps defn ops).attached = true) ∧
    (∀ s op, (stepOp defn s op).attached = true ↔
      (s.attached = true ∧ op ≠ ProviderOp.unmount) ∨
      (∃ name, op = ProviderOp.openM name ∧ currentModal s = none)) :=
  ⟨foldl_attached_inv defn ops hops initProviderState (fun h => absurd rfl h),
   fun s op => stepOp_attached_iff defn s op⟩

/-- Witness for C3 on a concrete run: open, close everything, reopen — the
handler is attached at the end, and it stayed attached across the
close-to-empty transition. -/
theorem backHandler_lifecycle_witness :
    (ProviderOp.unmount ∉
      ([.openM "A", .closeAll, .openM "A"] : List ProviderOp)) ∧
    (runOps ["A"] [.openM "A", .closeAll, .openM "A"]).attached = true ∧
    (runOps ["A"] [.openM "A", .closeAll]).attached = true := by
  have h := backHandler_lifecycle ["A"] [.openM "A", .closeAll, .openM "A"]
    (by decide)
  exact ⟨by decide, h.1 (by decide), by decide⟩

/-- Claim C4: on every non-null snapshot the listener produces a context
value whose `currentModal` and `stack` come from the snapshot while all five
operation fields are those of the previous context value. -/
theorem listener_folds_snapshot (ctx : ContextValue) (ms : Snapshot)
    (error : Option String) :
    (listener ctx (some ms) error).1.currentModal = ms.currentModal ∧
    (listener ctx (some ms) error).1.stack = ms.stack ∧
    (listener ctx (some ms) error).1.closeAllModals = ctx.closeAllModals ∧
    (listener ctx (some ms) error).1.closeModals = ctx.closeModals ∧
    (listener ctx (some ms) error).1.closeModal = ctx.closeModal ∧
    (listener ctx (some ms) error).1.openModal = ctx.openModal ∧
    (listener ctx (some ms) error).1.getParam = ctx.getParam :=
  ⟨rfl, rfl, rfl, rfl, rfl, rfl, rfl⟩

/-- Claim C5: on an error notification (null snapshot) the listener logs
`console.warn('Modalfy', error)` and returns with the displayed context
value completely unchanged; as a total function it returns normally. -/
theorem listener_error_logs_and_preserves (ctx : ContextValue)
    (error : Option String) :
    listener ctx none error = (ctx, [{ tag := "Modalfy", error := error }]) :=
  rfl

/-- Claim C8: with the `stack` prop absent, the mount effect raises the
fatal configuration error and performs no store operation: neither `init`
nor `subscribe` is reached. -/
theorem mountEffect_missing_stack :
    mountEffect none =
      ([], some (.configuration
        "You need to provide a `stack` prop to <ModalProvider>")) :=
  rfl

end Modalfy
